import Mathlib

/-!
Shallow embedding of the Flask server `app.py` of the
Reinforcement-Learning-Pacman repository, together with proofs about the
player registry, the telemetry store and the chart-data pipeline.

Timestamps (`datetime.now()` formatted as a string) are passed in as an
explicit `now : String` argument.  JSON numbers are modelled as rationals.
A missing key in a JSON request body is modelled as `none`.
An uncaught Python exception escaping a handler is modelled as the
`Except.error` constructor of the handler's result type.
-/

namespace PacmanServer

/-- A player record as created by `register_player` in `app.py` (lines
107-113).  The Python `class` key is named `cls` here because `class` is a
Lean keyword. -/
structure Player where
  id : Nat
  name : String
  cls : String
  registered_on : String
  last_login : String
deriving Repr, DecidableEq

/-- JSON body of a `POST /register_player` request; `none` models a missing
key, read by the handler with `data.get(key, 'Unknown')`. -/
structure RegPayload where
  name : Option String
  cls : Option String
deriving Repr, DecidableEq

/-- A JSON response body carrying a `status` field and an optional
`message` field. -/
structure JsonResp where
  status : String
  message : Option String
deriving Repr, DecidableEq

/-- The lookup loop of `register_player` (app.py lines 97-103): find the
first stored player with the given name and class and set its `last_login`
to `now`; `none` when no player matches (the `player_exists` flag stays
false). -/
def touchFirst (name cls now : String) : List Player → Option (List Player)
  | [] => none
  | p :: rest =>
    if p.name = name ∧ p.cls = cls then
      some ({ p with last_login := now } :: rest)
    else
      (touchFirst name cls now rest).map (p :: ·)

/-- The `register_player` handler (app.py lines 87-118).  `now` stands for
the formatted `datetime.now()`.  Returns the new registry and the JSON
response; the handler always answers `{'status': 'success'}`. -/
def register_player (now : String) (data : RegPayload) (ps : List Player) :
    List Player × JsonResp :=
  let player_name := data.name.getD "Unknown"
  let player_class := data.cls.getD "Unknown"
  match touchFirst player_name player_class now ps with
  | some ps2 => (ps2, ⟨"success", none⟩)
  | none =>
    (ps ++ [⟨ps.length + 1, player_name, player_class, now, now⟩],
     ⟨"success", none⟩)

/-- Result of the `delete_player` handler: the registry after the call and
the JSON response together with its HTTP status code. -/
structure DelResult where
  players : List Player
  status : String
  message : String
  http : Nat
deriving Repr, DecidableEq

/-- The re-indexing loop of `delete_player` (app.py lines 299-300):
`players_data[j]['id'] = j + 1` for every position `j` with `i ≤ j`.  The
argument `j` tracks the absolute position of the head of the remaining
list. -/
def reindexFrom (i : Nat) (j : Nat) : List Player → List Player
  | [] => []
  | p :: rest =>
    (if i ≤ j then { p with id := j + 1 } else p) :: reindexFrom i (j + 1) rest

/-- The `delete_player` handler (app.py lines 285-307): delete the first
player whose id equals `player_id` and re-index every player from that
position on; answer a 404 JSON error when no player matches. -/
def delete_player (player_id : Nat) (ps : List Player) : DelResult :=
  match ps.findIdx? (fun p => p.id == player_id) with
  | some i =>
    ⟨reindexFrom i 0 (ps.eraseIdx i), "success", "Player deleted successfully", 200⟩
  | none => ⟨ps, "error", "Player not found", 404⟩

/-- The ids of the registry, in stored order. -/
def idsOf (ps : List Player) : List Nat := ps.map (fun p => p.id)

/-- The (name, class) keys of the registry, in stored order. -/
def pairsOf (ps : List Player) : List (String × String) :=
  ps.map (fun p => (p.name, p.cls))

/-- The ids of the registry are the dense sequence `1..N` in stored order. -/
def Dense (ps : List Player) : Prop := idsOf ps = List.range' 1 ps.length

/-- At most one record per (name, class) pair. -/
def UniquePairs (ps : List Player) : Prop := (pairsOf ps).Nodup

instance (ps : List Player) : Decidable (Dense ps) :=
  inferInstanceAs (Decidable (idsOf ps = List.range' 1 ps.length))

instance (ps : List Player) : Decidable (UniquePairs ps) :=
  inferInstanceAs (Decidable ((pairsOf ps).Nodup))

/-- Sample registry used by concrete witnesses. -/
def samplePlayers : List Player :=
  [⟨1, "Alice", "10A", "t1", "t1"⟩, ⟨2, "Bob", "10B", "t2", "t2"⟩,
   ⟨3, "Cara", "10A", "t3", "t3"⟩]

/-- C9: deleting an id that is not present answers a 404 not-found JSON
error and leaves the registry completely unchanged. -/
theorem delete_player_not_found (player_id : Nat) (ps : List Player)
    (h : ∀ p ∈ ps, p.id ≠ player_id) :
    delete_player player_id ps = ⟨ps, "error", "Player not found", 404⟩ := by
  have hnone : ps.findIdx? (fun p => p.id == player_id) = none := by
    rw [List.findIdx?_eq_none_iff]
    intro p hp
    simpa using h p hp
  unfold delete_player
  rw [hnone]

/-- Witness for C9 at a concrete registry and a concrete absent id. -/
theorem delete_player_not_found_witness :
    (∀ p ∈ samplePlayers, p.id ≠ 7) ∧
    delete_player 7 samplePlayers =
      ⟨samplePlayers, "error", "Player not found", 404⟩ :=
  ⟨by decide, delete_player_not_found 7 samplePlayers (by decide)⟩

/-- C10: a `register_player` request with a missing `name` or `class` field
does not fail: the missing field is read as the string `"Unknown"`, the
upsert proceeds as if that value had been supplied, and the response status
is success. -/
theorem register_player_missing_field (now : String) (d : RegPayload)
    (ps : List Player) (h : d.name = none ∨ d.cls = none) :
    (register_player now d ps).2.status = "success" ∧
    register_player now d ps =
      register_player now ⟨some (d.name.getD "Unknown"), some (d.cls.getD "Unknown")⟩ ps := by
  constructor
  · unfold register_player
    cases htf : touchFirst (d.name.getD "Unknown") (d.cls.getD "Unknown") now ps <;>
      simp [htf]
  · unfold register_player
    simp

/-- Witness for C10 at a concrete payload with both fields missing. -/
theorem register_player_missing_field_witness :
    ((⟨none, none⟩ : RegPayload).name = none ∨ (⟨none, none⟩ : RegPayload).cls = none) ∧
    ((register_player "t9" ⟨none, none⟩ samplePlayers).2.status = "success" ∧
     register_player "t9" ⟨none, none⟩ samplePlayers =
       register_player "t9" ⟨some "Unknown", some "Unknown"⟩ samplePlayers) :=
  ⟨Or.inl rfl, register_player_missing_field "t9" ⟨none, none⟩ samplePlayers (Or.inl rfl)⟩

/-- The lookup loop finds no player exactly when no stored player carries
the requested (name, class) pair. -/
theorem touchFirst_eq_none (name cls now : String) (ps : List Player) :
    touchFirst name cls now ps = none ↔
      ∀ p ∈ ps, ¬(p.name = name ∧ p.cls = cls) := by
  induction ps with
  | nil => simp [touchFirst]
  | cons p rest ih =>
    by_cases hp : p.name = name ∧ p.cls = cls
    · simp [touchFirst, hp]
    · simp only [touchFirst, if_neg hp, Option.map_eq_none', ih, List.mem_cons]
      constructor
      · intro h q hq
        rcases hq with rfl | hq
        · exact hp
        · exact h q hq
      · intro h q hq
        exact h q (Or.inr hq)

/-- On a registry with unique (name, class) pairs that contains the
requested pair, the lookup loop updates exactly the `last_login` of the
record carrying the pair. -/
theorem touchFirst_mem (name cls now : String) (ps : List Player)
    (hu : UniquePairs ps) (hm : (name, cls) ∈ pairsOf ps) :
    ∃ i, ∃ hi : i < ps.length,
      (ps.get ⟨i, hi⟩).name = name ∧ (ps.get ⟨i, hi⟩).cls = cls ∧
      touchFirst name cls now ps =
        some (ps.set i { ps.get ⟨i, hi⟩ with last_login := now }) := by
  induction ps with
  | nil => simp [pairsOf] at hm
  | cons p rest ih =>
    by_cases hp : p.name = name ∧ p.cls = cls
    · refine ⟨0, Nat.succ_pos _, hp.1, hp.2, ?_⟩
      simp [touchFirst, hp]
    · have hm' : (name, cls) ∈ pairsOf rest := by
        rcases (by simpa [pairsOf] using hm) with h | h
        · exact absurd ⟨h.1.symm, h.2.symm⟩ hp
        · simpa [pairsOf] using h
      have hu' : UniquePairs rest := by
        have := hu
        simp only [UniquePairs, pairsOf, List.map_cons, List.nodup_cons] at this
        exact this.2
      rcases ih hu' hm' with ⟨i, hi, h1, h2, heq⟩
      refine ⟨i + 1, Nat.succ_lt_succ hi, ?_, ?_, ?_⟩
      · simpa using h1
      · simpa using h2
      · simp only [touchFirst, if_neg hp, heq, Option.map_some']
        simp

/-- C5: registering a (name, class) pair that is already present leaves
the record count unchanged and only refreshes that record's `last_login`
(id, name, class and `registered_on` are untouched, the other records are
untouched) and answers success; registering an absent pair appends a new
record whose id is the current record count plus one. -/
theorem register_player_upsert (now name cls : String) (ps : List Player)
    (hu : UniquePairs ps) :
    ((name, cls) ∈ pairsOf ps →
      ∃ i, ∃ hi : i < ps.length,
        (ps.get ⟨i, hi⟩).name = name ∧ (ps.get ⟨i, hi⟩).cls = cls ∧
        register_player now ⟨some name, some cls⟩ ps =
          (ps.set i { ps.get ⟨i, hi⟩ with last_login := now }, ⟨"success", none⟩) ∧
        (register_player now ⟨some name, some cls⟩ ps).1.length = ps.length) ∧
    ((name, cls) ∉ pairsOf ps →
      register_player now ⟨some name, some cls⟩ ps =
        (ps ++ [⟨ps.length + 1, name, cls, now, now⟩], ⟨"success", none⟩)) := by
  constructor
  · intro hm
    rcases touchFirst_mem name cls now ps hu hm with ⟨i, hi, h1, h2, heq⟩
    have hreg : register_player now ⟨some name, some cls⟩ ps =
        (ps.set i { ps.get ⟨i, hi⟩ with last_login := now }, ⟨"success", none⟩) := by
      unfold register_player
      simp only [Option.getD_some]
      rw [heq]
    exact ⟨i, hi, h1, h2, hreg, by rw [hreg]; simp⟩
  · intro hm
    have hnone : touchFirst name cls now ps = none := by
      rw [touchFirst_eq_none]
      intro p hp hcontra
      exact hm (by simp only [pairsOf, List.mem_map]; exact ⟨p, hp, by rw [hcontra.1, hcontra.2]⟩)
    unfold register_player
    simp only [Option.getD_some]
    rw [hnone]

/-- Witness for C5 at a concrete registry and an already-present pair. -/
theorem register_player_upsert_witness :
    UniquePairs samplePlayers ∧
    ((("Bob", "10B") ∈ pairsOf samplePlayers →
      ∃ i, ∃ hi : i < samplePlayers.length,
        (samplePlayers.get ⟨i, hi⟩).name = "Bob" ∧
        (samplePlayers.get ⟨i, hi⟩).cls = "10B" ∧
        register_player "t9" ⟨some "Bob", some "10B"⟩ samplePlayers =
          (samplePlayers.set i
            { samplePlayers.get ⟨i, hi⟩ with last_login := "t9" }, ⟨"success", none⟩) ∧
        (register_player "t9" ⟨some "Bob", some "10B"⟩ samplePlayers).1.length =
          samplePlayers.length) ∧
    (("Bob", "10B") ∉ pairsOf samplePlayers →
      register_player "t9" ⟨some "Bob", some "10B"⟩ samplePlayers =
        (samplePlayers ++ [⟨samplePlayers.length + 1, "Bob", "10B", "t9", "t9"⟩],
         ⟨"success", none⟩))) :=
  ⟨by decide, register_player_upsert "t9" "Bob" "10B" samplePlayers (by decide)⟩

/-- Re-indexing preserves the length of the registry. -/
theorem reindexFrom_length (i : Nat) : ∀ (j : Nat) (l : List Player),
    (reindexFrom i j l).length = l.length
  | _, [] => rfl
  | j, _ :: rest => by simp [reindexFrom, reindexFrom_length i (j + 1) rest]

/-- Entry-wise description of the re-indexing loop: positions at or after
`i` get id `position + 1`, earlier positions are untouched. -/
theorem reindexFrom_get (i : Nat) : ∀ (l : List Player) (j k : Nat)
    (hk : k < (reindexFrom i j l).length) (hk2 : k < l.length),
    (reindexFrom i j l).get ⟨k, hk⟩ =
      if i ≤ j + k then { l.get ⟨k, hk2⟩ with id := j + k + 1 } else l.get ⟨k, hk2⟩
  | [], _, k, _, hk2 => absurd hk2 (Nat.not_lt_zero k)
  | p :: rest, j, 0, hk, hk2 => by
    simp [reindexFrom]
  | p :: rest, j, k + 1, hk, hk2 => by
    have hk' : k < (reindexFrom i (j + 1) rest).length := by
      rw [reindexFrom_length]
      exact Nat.lt_of_succ_lt_succ hk2
    have ih := reindexFrom_get i rest (j + 1) k hk' (Nat.lt_of_succ_lt_succ hk2)
    have hj : j + 1 + k = j + (k + 1) := by omega
    rw [hj] at ih
    simpa [reindexFrom] using ih

/-- Re-indexing does not touch names and classes. -/
theorem reindexFrom_pairs (i : Nat) : ∀ (j : Nat) (l : List Player),
    pairsOf (reindexFrom i j l) = pairsOf l
  | _, [] => rfl
  | j, p :: rest => by
    have ih := reindexFrom_pairs i (j + 1) rest
    by_cases h : i ≤ j <;> simp [reindexFrom, pairsOf, h] <;>
      simpa [pairsOf] using ih

/-- Density of the ids, stated entry by entry. -/
theorem dense_iff (ps : List Player) :
    Dense ps ↔ ∀ k (hk : k < ps.length), (ps.get ⟨k, hk⟩).id = k + 1 := by
  unfold Dense
  rw [List.ext_get_iff]
  simp only [idsOf, List.length_map, List.length_range', List.get_eq_getElem,
    List.getElem_map, List.getElem_range', true_and]
  constructor
  · intro h k hk
    have := h k (by simpa using hk) (by simpa using hk)
    omega
  · intro h n h1 h2
    have := h n (by simpa using h1)
    omega

/-- The lookup loop only rewrites one `last_login`, so it changes neither
the ids nor the (name, class) pairs nor the length of the registry. -/
theorem touchFirst_preserves (name cls now : String) :
    ∀ (ps ps2 : List Player), touchFirst name cls now ps = some ps2 →
      idsOf ps2 = idsOf ps ∧ pairsOf ps2 = pairsOf ps ∧ ps2.length = ps.length
  | [], ps2 => by simp [touchFirst]
  | p :: rest, ps2 => by
    by_cases hp : p.name = name ∧ p.cls = cls
    · intro h
      simp only [touchFirst, if_pos hp, Option.some.injEq] at h
      subst h
      simp [idsOf, pairsOf]
    · intro h
      simp only [touchFirst, if_neg hp, Option.map_eq_some'] at h
      rcases h with ⟨rest2, hrest, rfl⟩
      have ih := touchFirst_preserves name cls now rest rest2 hrest
      simp only [idsOf, pairsOf] at ih
      simp [idsOf, pairsOf, ih.1, ih.2.1, ih.2.2]

/-- Equation for `register_player` when the (name, class) pair is found. -/
theorem register_player_eq_touch (now : String) (d : RegPayload)
    (ps ps2 : List Player)
    (htf : touchFirst (d.name.getD "Unknown") (d.cls.getD "Unknown") now ps = some ps2) :
    register_player now d ps = (ps2, ⟨"success", none⟩) := by
  simp only [register_player]
  rw [htf]

/-- Equation for `register_player` when the (name, class) pair is absent. -/
theorem register_player_eq_append (now : String) (d : RegPayload) (ps : List Player)
    (htf : touchFirst (d.name.getD "Unknown") (d.cls.getD "Unknown") now ps = none) :
    register_player now d ps =
      (ps ++ [⟨ps.length + 1, d.name.getD "Unknown", d.cls.getD "Unknown", now, now⟩],
       ⟨"success", none⟩) := by
  simp only [register_player]
  rw [htf]

/-- Equation for `delete_player` when a player with the id exists. -/
theorem delete_player_eq_found (player_id i : Nat) (ps : List Player)
    (hfi : ps.findIdx? (fun p => p.id == player_id) = some i) :
    delete_player player_id ps =
      ⟨reindexFrom i 0 (ps.eraseIdx i), "success", "Player deleted successfully", 200⟩ := by
  unfold delete_player
  rw [hfi]

/-- `register_player` preserves the registry invariant. -/
theorem register_player_preserves (now : String) (d : RegPayload)
    (ps : List Player) (hu : UniquePairs ps) (hd : Dense ps) :
    UniquePairs (register_player now d ps).1 ∧
    Dense (register_player now d ps).1 := by
  cases htf : touchFirst (d.name.getD "Unknown") (d.cls.getD "Unknown") now ps with
  | some ps2 =>
    rw [register_player_eq_touch now d ps ps2 htf]
    have h := touchFirst_preserves _ _ _ ps ps2 htf
    constructor
    · simpa only [UniquePairs, h.2.1] using hu
    · simpa only [Dense, h.1, h.2.2] using hd
  | none =>
    rw [register_player_eq_append now d ps htf]
    have hnotin : (d.name.getD "Unknown", d.cls.getD "Unknown") ∉ pairsOf ps := by
      rw [touchFirst_eq_none] at htf
      intro hmem
      rcases List.mem_map.mp hmem with ⟨p, hp, hpe⟩
      exact htf p hp ⟨congrArg Prod.fst hpe, congrArg Prod.snd hpe⟩
    constructor
    · simp only [UniquePairs, pairsOf, List.map_append, List.map_cons, List.map_nil]
      rw [List.nodup_append]
      refine ⟨hu, List.nodup_singleton _, ?_⟩
      intro x hx hx2
      simp only [List.mem_singleton] at hx2
      rw [hx2] at hx
      exact hnotin hx
    · unfold Dense idsOf at hd ⊢
      simp only [List.map_append, List.map_cons, List.map_nil, List.length_append,
        List.length_cons, List.length_nil, Nat.zero_add]
      rw [hd, List.range'_1_concat 1 ps.length]
      simp [Nat.add_comm]

/-- The not-found equation for `delete_player`. -/
theorem delete_player_eq_not_found (player_id : Nat) (ps : List Player)
    (hfi : ps.findIdx? (fun p => p.id == player_id) = none) :
    delete_player player_id ps = ⟨ps, "error", "Player not found", 404⟩ := by
  unfold delete_player
  rw [hfi]

/-- `delete_player` keeps the ids dense. -/
theorem delete_player_dense (player_id : Nat) (ps : List Player)
    (hd : Dense ps) : Dense (delete_player player_id ps).players := by
  cases hfi : ps.findIdx? (fun p => p.id == player_id) with
  | none =>
    rw [delete_player_eq_not_found player_id ps hfi]
    exact hd
  | some i =>
    rw [delete_player_eq_found player_id i ps hfi]
    rw [dense_iff]
    intro k hk
    have hk2 : k < (ps.eraseIdx i).length := by
      rwa [reindexFrom_length] at hk
    rw [reindexFrom_get i _ 0 k hk hk2, Nat.zero_add]
    by_cases hik : i ≤ k
    · simp [hik]
    · have hki : k < i := Nat.lt_of_not_le hik
      have hklen : k < ps.length := Nat.lt_of_lt_of_le hk2 (List.length_eraseIdx_le ps i)
      have herase : (ps.eraseIdx i).get ⟨k, hk2⟩ = ps.get ⟨k, hklen⟩ := by
        simp only [List.get_eq_getElem]
        exact List.getElem_eraseIdx_of_lt ps i k hk2 hki
      rw [if_neg hik, herase]
      exact (dense_iff ps).mp hd k hklen

/-- `delete_player` preserves the registry invariant. -/
theorem delete_player_preserves (player_id : Nat) (ps : List Player)
    (hu : UniquePairs ps) (hd : Dense ps) :
    UniquePairs (delete_player player_id ps).players ∧
    Dense (delete_player player_id ps).players := by
  refine ⟨?_, delete_player_dense player_id ps hd⟩
  cases hfi : ps.findIdx? (fun p => p.id == player_id) with
  | none =>
    rw [delete_player_eq_not_found player_id ps hfi]
    exact hu
  | some i =>
    rw [delete_player_eq_found player_id i ps hfi]
    have hpairs : pairsOf (reindexFrom i 0 (ps.eraseIdx i)) =
        pairsOf (ps.eraseIdx i) := reindexFrom_pairs i 0 _
    have hsub : List.Sublist (pairsOf (ps.eraseIdx i)) (pairsOf ps) := by
      unfold pairsOf
      exact (List.eraseIdx_sublist ps i).map (fun p => (p.name, p.cls))
    exact List.Nodup.sublist (hpairs ▸ hsub) hu

/-- A mutating request against the player registry: a `POST
/register_player` or a `DELETE /delete_player/<id>`. -/
inductive Op where
  | reg (now : String) (data : RegPayload)
  | del (player_id : Nat)

/-- The registry after serving one request. -/
def applyOp (ps : List Player) : Op → List Player
  | .reg now data => (register_player now data ps).1
  | .del player_id => (delete_player player_id ps).players

/-- The registry after serving a sequence of requests, starting from the
initial empty `players_data` list. -/
def runOps (ops : List Op) : List Player := ops.foldl applyOp []

/-- The registry invariant: at most one record per (name, class) pair, and
the ids are the dense sequence 1..N in stored order. -/
def RegistryInv (ps : List Player) : Prop := UniquePairs ps ∧ Dense ps

/-- A single request preserves the registry invariant. -/
theorem applyOp_preserves (ps : List Player) (op : Op)
    (h : RegistryInv ps) : RegistryInv (applyOp ps op) := by
  cases op with
  | reg now data => exact ⟨(register_player_preserves now data ps h.1 h.2).1,
      (register_player_preserves now data ps h.1 h.2).2⟩
  | del player_id => exact ⟨(delete_player_preserves player_id ps h.1 h.2).1,
      (delete_player_preserves player_id ps h.1 h.2).2⟩

/-- Serving requests one by one preserves the registry invariant. -/
theorem foldl_applyOp_preserves : ∀ (ops : List Op) (ps : List Player),
    RegistryInv ps → RegistryInv (ops.foldl applyOp ps)
  | [], ps, h => h
  | op :: ops, ps, h =>
    foldl_applyOp_preserves ops (applyOp ps op) (applyOp_preserves ps op h)

/-- C4: after any sequence of register and delete requests starting from
the empty registry, there is at most one record per (name, class) pair and
the stored ids are exactly the dense sequence 1..N, with no gaps, also
after any delete. -/
theorem registry_invariant (ops : List Op) : RegistryInv (runOps ops) :=
  foldl_applyOp_preserves ops [] ⟨List.Pairwise.nil, rfl⟩

/-- On a registry with dense ids, looking up a stored id finds exactly the
position `id - 1`. -/
theorem findIdx_of_dense (player_id : Nat) (ps : List Player)
    (hd : Dense ps) (hm : player_id ∈ idsOf ps) :
    ps.findIdx? (fun p => p.id == player_id) = some (player_id - 1) ∧
    1 ≤ player_id ∧ player_id ≤ ps.length := by
  have hget := (dense_iff ps).mp hd
  rcases List.mem_map.mp hm with ⟨p, hp, hpe⟩
  rcases List.mem_iff_get.mp hp with ⟨⟨k, hk⟩, hpk⟩
  have hid : player_id = k + 1 := by
    rw [← hpe, ← hpk]
    exact hget k hk
  have hb1 : 1 ≤ player_id := by omega
  have hb2 : player_id ≤ ps.length := by omega
  refine ⟨?_, hb1, hb2⟩
  rw [List.findIdx?_eq_some_iff_getElem]
  have hklt : player_id - 1 < ps.length := by omega
  refine ⟨hklt, ?_, ?_⟩
  · have := hget (player_id - 1) hklt
    simp only [List.get_eq_getElem] at this
    simp [this]
    omega
  · intro j hj
    have hjlt : j < ps.length := by omega
    have := hget j hjlt
    simp only [List.get_eq_getElem] at this
    simp [this]
    omega

/-- The default record used to state entry-wise facts with `List.getD`. -/
def defaultPlayer : Player := ⟨0, "", "", "", ""⟩

/-- C6: deleting an id stored in a registry with dense ids answers success,
removes exactly the record whose id equals the argument, keeps every
earlier record unchanged, moves every subsequent record one position down
with its id decremented by one, and restores density. -/
theorem delete_player_found (player_id : Nat) (ps : List Player)
    (hd : Dense ps) (hm : player_id ∈ idsOf ps) :
    (delete_player player_id ps).status = "success" ∧
    (delete_player player_id ps).http = 200 ∧
    (delete_player player_id ps).players.length = ps.length - 1 ∧
    Dense (delete_player player_id ps).players ∧
    (∀ k, k < ps.length - 1 →
      (k < player_id - 1 →
        (delete_player player_id ps).players.getD k defaultPlayer =
          ps.getD k defaultPlayer) ∧
      (player_id - 1 ≤ k →
        (delete_player player_id ps).players.getD k defaultPlayer =
          { ps.getD (k + 1) defaultPlayer with
              id := (ps.getD (k + 1) defaultPlayer).id - 1 })) := by
  rcases findIdx_of_dense player_id ps hd hm with ⟨hfi, hb1, hb2⟩
  have heq := delete_player_eq_found player_id (player_id - 1) ps hfi
  have hget := (dense_iff ps).mp hd
  have hlenE : (ps.eraseIdx (player_id - 1)).length = ps.length - 1 := by
    rw [List.length_eraseIdx_of_lt]
    omega
  have hlen : (reindexFrom (player_id - 1) 0 (ps.eraseIdx (player_id - 1))).length =
      ps.length - 1 := by
    rw [reindexFrom_length, hlenE]
  refine ⟨by rw [heq], by rw [heq], by rw [heq]; exact hlen,
    delete_player_dense player_id ps hd, ?_⟩
  intro k hk
  rw [heq]
  have hk1 : k < (reindexFrom (player_id - 1) 0 (ps.eraseIdx (player_id - 1))).length := by
    omega
  have hk2 : k < (ps.eraseIdx (player_id - 1)).length := by omega
  have hgd : (reindexFrom (player_id - 1) 0 (ps.eraseIdx (player_id - 1))).getD k
      defaultPlayer =
      (reindexFrom (player_id - 1) 0 (ps.eraseIdx (player_id - 1))).get ⟨k, hk1⟩ :=
    List.getD_eq_get _ _ hk1
  constructor
  · intro hklt
    have hklen : k < ps.length := by omega
    rw [hgd, reindexFrom_get (player_id - 1) _ 0 k hk1 hk2, Nat.zero_add,
      if_neg (by omega), List.getD_eq_get _ _ hklen]
    simp only [List.get_eq_getElem]
    exact List.getElem_eraseIdx_of_lt ps (player_id - 1) k hk2 hklt
  · intro hkge
    have hklen : k + 1 < ps.length := by omega
    rw [hgd, reindexFrom_get (player_id - 1) _ 0 k hk1 hk2, Nat.zero_add,
      if_pos (by omega), List.getD_eq_get _ _ hklen]
    have herase : (ps.eraseIdx (player_id - 1)).get ⟨k, hk2⟩ = ps.get ⟨k + 1, hklen⟩ := by
      simp only [List.get_eq_getElem]
      have := List.getElem_eraseIdx_of_ge ps (player_id - 1) k hk2 hkge
      simpa using this
    rw [herase]
    have hid : (ps.get ⟨k + 1, hklen⟩).id = k + 2 := hget (k + 1) hklen
    rw [hid]
    simp

/-- Witness for C6: deleting id 2 from records with ids [1, 2, 3] keeps the
first and third records with ids renumbered to [1, 2]. -/
theorem delete_player_found_witness :
    Dense samplePlayers ∧ 2 ∈ idsOf samplePlayers ∧
    ((delete_player 2 samplePlayers).status = "success" ∧
     (delete_player 2 samplePlayers).http = 200 ∧
     (delete_player 2 samplePlayers).players.length = samplePlayers.length - 1 ∧
     Dense (delete_player 2 samplePlayers).players ∧
     (∀ k, k < samplePlayers.length - 1 →
       (k < 2 - 1 →
         (delete_player 2 samplePlayers).players.getD k defaultPlayer =
           samplePlayers.getD k defaultPlayer) ∧
       (2 - 1 ≤ k →
         (delete_player 2 samplePlayers).players.getD k defaultPlayer =
           { samplePlayers.getD (k + 1) defaultPlayer with
               id := (samplePlayers.getD (k + 1) defaultPlayer).id - 1 }))) :=
  ⟨by decide, by decide, delete_player_found 2 samplePlayers (by decide) (by decide)⟩

/-- The global `learning_data` telemetry store (app.py lines 29-34): four
parallel series appended to by `save_generation_data`. -/
structure LearningData where
  generations : List ℚ
  fitness_scores : List ℚ
  dots_eaten : List ℚ
  scores : List ℚ
deriving Repr, DecidableEq

/-- JSON body of a `POST /save_generation_data` request.  `none` models a
missing key; the handler reads these four keys with `data[key]`, which
raises `KeyError` on a missing key. -/
structure GenPayload where
  generation : Option ℚ
  fitness : Option ℚ
  dots_eaten : Option ℚ
  score : Option ℚ
deriving Repr, DecidableEq

/-- The `save_generation_data` handler (app.py lines 185-203): append the
four fields to the four series, in source order.  A `.error` result models
an uncaught Python `KeyError` escaping the handler (the appends before the
failing lookup have already happened, which the first component records). -/
def save_generation_data (ld : LearningData) (d : GenPayload) :
    LearningData × Except String JsonResp :=
  match d.generation with
  | none => (ld, .error "KeyError: generation")
  | some g =>
    let ld1 := { ld with generations := ld.generations ++ [g] }
    match d.fitness with
    | none => (ld1, .error "KeyError: fitness")
    | some f =>
      let ld2 := { ld1 with fitness_scores := ld1.fitness_scores ++ [f] }
      match d.dots_eaten with
      | none => (ld2, .error "KeyError: dots_eaten")
      | some de =>
        let ld3 := { ld2 with dots_eaten := ld2.dots_eaten ++ [de] }
        match d.score with
        | none => (ld3, .error "KeyError: score")
        | some sc =>
          ({ ld3 with scores := ld3.scores ++ [sc] }, .ok ⟨"success", none⟩)

/-- The minimum of the four series lengths, computed by `get_learning_curve`
(app.py lines 216-221); Python's 4-ary `min` associates to the left. -/
def minLen (ld : LearningData) : Nat :=
  min (min (min ld.generations.length ld.fitness_scores.length)
    ld.dots_eaten.length) ld.scores.length

/-- The `get_learning_curve` handler (app.py lines 205-278): a no-data JSON
error when the generation series is empty, a second JSON error when the
common minimum length is zero, and otherwise the four series truncated to
the common minimum length, exactly as handed to the three subplots. -/
def get_learning_curve (ld : LearningData) :
    Except String (List ℚ × List ℚ × List ℚ × List ℚ) :=
  if ld.generations = [] then
    .error "No learning data available yet"
  else
    let min_length := minLen ld
    let generations := ld.generations.take min_length
    let fitness_scores := ld.fitness_scores.take min_length
    let dots_eaten := ld.dots_eaten.take min_length
    let scores := ld.scores.take min_length
    if min_length = 0 then
      .error "Not enough learning data collected yet"
    else
      .ok (generations, fitness_scores, dots_eaten, scores)

/-- Counterexample to C7: a store whose generation series is non-empty but
whose other series are empty is answered with an error, not with a chart
rendered from zero truncated points. -/
theorem get_learning_curve_nonempty_error :
    (⟨[1], [], [], []⟩ : LearningData).generations ≠ [] ∧
    get_learning_curve ⟨[1], [], [], []⟩ =
      .error "Not enough learning data collected yet" := by
  constructor
  · decide
  · rfl

/-- C7 as amended: `get_learning_curve` fails with a no-data error when the
generation series is empty or when the common minimum length of the four
series is zero; otherwise it renders the three subplots from exactly the
first `minLen` elements of each series. -/
theorem get_learning_curve_spec (ld : LearningData) :
    (ld.generations = [] →
      get_learning_curve ld = .error "No learning data available yet") ∧
    (ld.generations ≠ [] → minLen ld = 0 →
      get_learning_curve ld = .error "Not enough learning data collected yet") ∧
    (ld.generations ≠ [] → minLen ld ≠ 0 →
      get_learning_curve ld =
        .ok (ld.generations.take (minLen ld), ld.fitness_scores.take (minLen ld),
          ld.dots_eaten.take (minLen ld), ld.scores.take (minLen ld))) := by
  refine ⟨fun h => ?_, fun h1 h2 => ?_, fun h1 h2 => ?_⟩
  · unfold get_learning_curve
    rw [if_pos h]
  · unfold get_learning_curve
    rw [if_neg h1, if_pos h2]
  · unfold get_learning_curve
    rw [if_neg h1, if_neg h2]

/-- Sample telemetry store from the specification's example: a generation
series of length 5 and a score series of length 3. -/
def sampleLearning : LearningData :=
  ⟨[1, 2, 3, 4, 5], [10, 20, 30, 40, 50], [7, 8, 9, 10, 11], [100, 200, 300]⟩

/-- Witness for C7 on the specification's example: all subplots use the
first 3 points of each series. -/
theorem get_learning_curve_spec_witness :
    sampleLearning.generations ≠ [] ∧ minLen sampleLearning ≠ 0 ∧
    get_learning_curve sampleLearning =
      .ok (sampleLearning.generations.take (minLen sampleLearning),
        sampleLearning.fitness_scores.take (minLen sampleLearning),
        sampleLearning.dots_eaten.take (minLen sampleLearning),
        sampleLearning.scores.take (minLen sampleLearning)) :=
  ⟨by decide, by decide,
    (get_learning_curve_spec sampleLearning).2.2 (by decide) (by decide)⟩

/-- JSON body of a `POST /generate_learning_plot` request; `none` models a
missing key, read by the handler with `data.get(key, [])`. -/
structure GlpPayload where
  episodes : Option (List ℚ)
  rewards : Option (List ℚ)
  states : Option (List ℚ)
deriving Repr, DecidableEq

/-- Outcome of the `generate_learning_plot` handler: either a JSON error
body `{'status': 'error', 'message': ...}`, or a success response whose
chart is drawn from exactly the four carried arrays (episodes on the x
axis; rewards, the moving average and states as the three curves). -/
inductive GlpResult where
  | errJson (message : String)
  | chart (episodes rewards states moving_avg : List ℚ)
deriving Repr, DecidableEq

/-- Whether the handler answered with a chart. -/
def GlpResult.isChart : GlpResult → Bool
  | .chart _ _ _ _ => true
  | .errJson _ => false

/-- The rewards array handed to matplotlib (empty on a JSON error). -/
def GlpResult.chartRewards : GlpResult → List ℚ
  | .chart _ r _ _ => r
  | .errJson _ => []

/-- Python's extended slice `xs[::k]` for a positive step `k`: every `k`-th
element of `xs`, starting with the first.  The last argument counts how
many elements remain to be skipped before the next kept one. -/
def sliceEvery (k : Nat) : List ℚ → Nat → List ℚ
  | [], _ => []
  | x :: xs, 0 => x :: sliceEvery k xs (k - 1)
  | _ :: xs, n + 1 => sliceEvery k xs n

/-- Window size of the moving average (app.py line 342). -/
def window_size : Nat := 5

/-- The moving-average loop of `generate_learning_plot` (app.py lines
341-347): entry `i` is the mean of the Python slice
`rewards[start_idx:end_idx]` where `start_idx = max(0, i - window_size // 2)`
(truncated `Nat` subtraction here) and
`end_idx = min(len(rewards), i + window_size // 2 + 1)`. -/
def moving_average (rewards : List ℚ) : List ℚ :=
  (List.range rewards.length).map (fun i =>
    let start_idx := i - window_size / 2
    let end_idx := min rewards.length (i + window_size / 2 + 1)
    ((rewards.drop start_idx).take (end_idx - start_idx)).sum /
      (((end_idx - start_idx : Nat)) : ℚ))

/-- The data processing of the `generate_learning_plot` handler (app.py
lines 309-347): validation, the optional downsampling with the extra
appended point, and the moving average, yielding exactly the arrays handed
to matplotlib.  `none` models a request whose body is absent or falsy.
Note the handler computes `min_length` but slices none of the arrays with
it; `min_length` is only used for the size test, the stride, and the value
appended to `episodes`.  The literal `rewards.getLastD 0` models the Python
`rewards[-1]` (the lists are non-empty whenever it is evaluated). -/
def generate_learning_plot (data : Option GlpPayload) : GlpResult :=
  match data with
  | none => .errJson "No data provided"
  | some d =>
    let episodes := d.episodes.getD []
    let rewards := d.rewards.getD []
    let states := d.states.getD []
    if episodes = [] ∨ rewards = [] ∨ states = [] then
      .errJson "Missing required data"
    else
      let min_length := min (min episodes.length rewards.length) states.length
      if min_length = 0 then
        .errJson "Empty data arrays"
      else
        let arrays :=
          if 500 < min_length then
            let sample_rate := max 1 (min_length / 500)
            let episodes := sliceEvery sample_rate episodes 0
            let rewards := sliceEvery sample_rate rewards 0
            let states := sliceEvery sample_rate states 0
            if episodes.getLast? ≠ some (min_length : ℚ) then
              (episodes ++ [(min_length : ℚ)], rewards ++ [rewards.getLastD 0],
               states ++ [states.getLastD 0])
            else
              (episodes, rewards, states)
          else
            (episodes, rewards, states)
        .chart arrays.1 arrays.2.1 arrays.2.2 (moving_average arrays.2.1)

/-- C1 (code bug): `generate_learning_plot` computes the common minimum
length 2 of the arrays of lengths 2, 3 and 3 but never truncates them:
the chart is fed the full untruncated arrays rather than 2 points of each
(matplotlib then fails on the axis-dimension mismatch the deleted
truncation was commented to avoid). -/
theorem generate_learning_plot_no_truncation :
    generate_learning_plot (some ⟨some [1, 2], some [10, 20, 30], some [4, 5, 6]⟩) =
      .chart [1, 2] [10, 20, 30] [4, 5, 6] [20, 20, 20] := by
  with_unfolding_all rfl

/-- Counterexample to C3: a `save_generation_data` request missing the
`generation` field raises an uncaught `KeyError` (modelled as `.error`)
instead of being recovered into a JSON body with a status field. -/
theorem save_generation_data_keyerror :
    (save_generation_data ⟨[], [], [], []⟩ ⟨none, some 1, some 2, some 3⟩).2 =
      .error "KeyError: generation" := rfl

/-- C3 as amended: requests with missing JSON fields to `register_player`
and `generate_learning_plot` are recovered locally into a JSON body with a
status field, but a `save_generation_data` request missing any of the
`generation`, `fitness`, `dots_eaten` or `score` fields escapes as an
uncaught `KeyError`. -/
theorem missing_fields_handling (now : String) (rp : RegPayload)
    (ps : List Player) (gp : GlpPayload)
    (hg : gp.episodes = none ∨ gp.rewards = none ∨ gp.states = none)
    (ld : LearningData) (sp : GenPayload)
    (hs : sp.generation = none ∨ sp.fitness = none ∨
      sp.dots_eaten = none ∨ sp.score = none) :
    (register_player now rp ps).2.status = "success" ∧
    generate_learning_plot (some gp) = .errJson "Missing required data" ∧
    ∃ e, (save_generation_data ld sp).2 = .error e := by
  refine ⟨?_, ?_, ?_⟩
  · unfold register_player
    cases htf : touchFirst (rp.name.getD "Unknown") (rp.cls.getD "Unknown") now ps <;>
      simp [htf]
  · simp only [generate_learning_plot]
    rcases hg with h | h | h <;> simp [h]
  · cases hgen : sp.generation with
    | none => exact ⟨"KeyError: generation", by simp [save_generation_data, hgen]⟩
    | some g =>
      cases hfit : sp.fitness with
      | none => exact ⟨"KeyError: fitness", by simp [save_generation_data, hgen, hfit]⟩
      | some f =>
        cases hde : sp.dots_eaten with
        | none =>
          exact ⟨"KeyError: dots_eaten", by simp [save_generation_data, hgen, hfit, hde]⟩
        | some de =>
          cases hsc : sp.score with
          | none =>
            exact ⟨"KeyError: score", by simp [save_generation_data, hgen, hfit, hde, hsc]⟩
          | some sc =>
            rcases hs with h | h | h | h <;> simp_all

/-- Witness for C3 as amended, at concrete requests each missing a field. -/
theorem missing_fields_handling_witness :
    ((⟨none, some [1], some [2]⟩ : GlpPayload).episodes = none ∨
      (⟨none, some [1], some [2]⟩ : GlpPayload).rewards = none ∨
      (⟨none, some [1], some [2]⟩ : GlpPayload).states = none) ∧
    ((⟨some 1, none, some 2, some 3⟩ : GenPayload).generation = none ∨
      (⟨some 1, none, some 2, some 3⟩ : GenPayload).fitness = none ∨
      (⟨some 1, none, some 2, some 3⟩ : GenPayload).dots_eaten = none ∨
      (⟨some 1, none, some 2, some 3⟩ : GenPayload).score = none) ∧
    ((register_player "t9" ⟨some "Dana", some "10C"⟩ samplePlayers).2.status = "success" ∧
     generate_learning_plot (some ⟨none, some [1], some [2]⟩) =
       .errJson "Missing required data" ∧
     ∃ e, (save_generation_data ⟨[], [], [], []⟩ ⟨some 1, none, some 2, some 3⟩).2 =
       .error e) :=
  ⟨Or.inl rfl, Or.inr (Or.inl rfl),
    missing_fields_handling "t9" ⟨some "Dana", some "10C"⟩ samplePlayers
      ⟨none, some [1], some [2]⟩ (Or.inl rfl) ⟨[], [], [], []⟩
      ⟨some 1, none, some 2, some 3⟩ (Or.inr (Or.inl rfl))⟩

/-- 1000 episode numbers 1..1000, as sent by the learning loop. -/
def bigEpisodes : List ℚ := (List.range' 1 1000).map (fun n => (n : ℚ))

/-- 1000 rewards, zero everywhere except the most recent one, which is 7. -/
def bigRewards : List ℚ := List.replicate 999 0 ++ [7]

/-- 1000 state counts, all zero. -/
def bigStates : List ℚ := List.replicate 1000 (0 : ℚ)

set_option maxRecDepth 1000000 in
/-- C2 (code bug): on three 1000-element arrays the handler downsamples
with stride 2 and then appends `min_length` to `episodes` and the last
element of the already-downsampled `rewards` and `states` — not the final
original data point.  The most recent reward 7 is dropped from the
rendered data (the rendered rewards are 501 zeros), although the chart is
produced without error. -/
theorem generate_learning_plot_drops_last_point :
    bigRewards.getLast? = some 7 ∧
    generate_learning_plot (some ⟨some bigEpisodes, some bigRewards, some bigStates⟩) =
      .chart ((List.range 500).map (fun n => ((2 * n + 1 : Nat) : ℚ)) ++ [1000])
        (List.replicate 501 0) (List.replicate 501 0) (List.replicate 501 0) ∧
    (7 : ℚ) ∉ List.replicate 501 (0 : ℚ) := by
  refine ⟨by with_unfolding_all rfl, by with_unfolding_all rfl, ?_⟩
  simp [List.mem_replicate]

/-- Stated from the specification: the indices of the centered window of
size 5 around index `i`, shrunk at the sequence boundaries — the valid
indices `j` with `i - 2 ≤ j ≤ i + 2` (the lower bound written additively
to avoid truncated subtraction). -/
def windowIndices (n i : Nat) : List Nat :=
  (List.range n).filter (fun j => decide (i ≤ j + 2 ∧ j ≤ i + 2))

/-- Stated from the specification: the arithmetic mean of the elements of
`rs` in the centered size-5 window around index `i`. -/
def windowMean (rs : List ℚ) (i : Nat) : ℚ :=
  ((windowIndices rs.length i).map (fun j => rs.getD j 0)).sum /
    (((windowIndices rs.length i).length : Nat) : ℚ)

/-- Filtering a range by an interval keeps a contiguous subrange. -/
theorem filter_range_interval (lo hi : Nat) : ∀ (n : Nat),
    (List.range n).filter (fun j => decide (lo ≤ j ∧ j < hi)) =
      List.range' lo (min n hi - lo)
  | 0 => by simp
  | n + 1 => by
    rw [List.range_succ, List.filter_append, filter_range_interval lo hi n]
    by_cases h : lo ≤ n ∧ n < hi
    · have h1 : min n hi = n := by omega
      have h2 : min (n + 1) hi = n + 1 := by omega
      have h3 : n + 1 - lo = (n - lo) + 1 := by omega
      rw [h1, h2, h3, List.range'_1_concat]
      have h4 : lo + (n - lo) = n := by omega
      rw [h4]
      simp [h]
    · have h5 : min (n + 1) hi - lo = min n hi - lo := by omega
      rw [h5]
      simp only [List.filter_cons, List.filter_nil]
      rw [if_neg (by simpa using h)]
      simp

/-- Reading a contiguous range of positions out of a list is the
corresponding slice. -/
theorem map_getD_range' (rs : List ℚ) : ∀ (k lo : Nat), lo + k ≤ rs.length →
    (List.range' lo k).map (fun j => rs.getD j 0) = (rs.drop lo).take k
  | 0, lo, _ => by simp
  | k + 1, lo, h => by
    have hlo : lo < rs.length := by omega
    rw [List.range'_succ, List.map_cons, List.drop_eq_getElem_cons hlo,
      List.take_succ_cons, map_getD_range' rs k (lo + 1) (by omega),
      List.getD_eq_getElem _ _ hlo]

/-- C8: the moving average of `generate_learning_plot` has the same length
as its input, and entry `i` is the arithmetic mean of the elements in the
centered window of size 5 around `i`, the window shrinking at the sequence
boundaries. -/
theorem moving_average_spec (rs : List ℚ) (h : rs ≠ []) :
    (moving_average rs).length = rs.length ∧
    ∀ i (hi : i < (moving_average rs).length),
      (moving_average rs).get ⟨i, hi⟩ = windowMean rs i := by
  refine ⟨by simp [moving_average], ?_⟩
  intro i hi
  have hin : i < rs.length := by simpa [moving_average] using hi
  have hcongr : (List.range rs.length).filter
        (fun j => decide (i ≤ j + 2 ∧ j ≤ i + 2)) =
      (List.range rs.length).filter (fun j => decide (i - 2 ≤ j ∧ j < i + 3)) :=
    List.filter_congr (fun j hj => decide_eq_decide.mpr (by omega))
  have hbound : (i - 2) + (min rs.length (i + 3) - (i - 2)) ≤ rs.length := by omega
  have hwm : windowMean rs i =
      ((rs.drop (i - 2)).take (min rs.length (i + 3) - (i - 2))).sum /
        (((min rs.length (i + 3) - (i - 2) : Nat)) : ℚ) := by
    unfold windowMean windowIndices
    rw [hcongr, filter_range_interval (i - 2) (i + 3) rs.length,
      map_getD_range' rs _ (i - 2) hbound, List.length_range']
  rw [hwm]
  simp only [moving_average, List.get_eq_getElem, List.getElem_map, List.getElem_range]
  have hws : window_size / 2 = 2 := rfl
  rw [hws]

/-- A 10-element reward sequence used as the C8 witness; at index 0 the
window mean averages exactly the elements at indices 0, 1 and 2. -/
def sampleRewards : List ℚ := [3, 6, 9, 1, 2, 5, 8, 7, 4, 10]

/-- Witness for C8 at a concrete 10-element reward sequence. -/
theorem moving_average_spec_witness :
    sampleRewards ≠ [] ∧
    ((moving_average sampleRewards).length = sampleRewards.length ∧
     ∀ i (hi : i < (moving_average sampleRewards).length),
       (moving_average sampleRewards).get ⟨i, hi⟩ = windowMean sampleRewards i) :=
  ⟨by decide, moving_average_spec sampleRewards (by decide)⟩

end PacmanServer
